import Mathlib

/-!
Shallow embedding of src/utils/actions.ts (smoldapp action layer).

The TypeScript module is a set of async helper functions, each of which
validates its typed request object and then issues one or two contract
calls through external wagmi/viem primitives (readContract, handleTx,
prepareSendTransaction, sendTransaction, waitForTransaction).

Modelling conventions:
* Addresses are opaque values carrying a validity flag.  assertAddress and
  toWagmiProvider live in utils/toWagmiProvider, outside src/, so they are
  modelled from the spec: assertAddress raises with a descriptive condition
  exactly when the address is missing or invalid, and toWagmiProvider
  resolves the connector to a provider whose account address appears here
  as the userAddress field of the request.
* bigint values are Int.
* Results of on-chain reads (allowance, balanceOfBatch), and the outcomes
  of the transaction primitives used by transferEther, are oracle inputs.
* JavaScript exceptions (assert from the assert package, assertAddress)
  are the error case of Except String.
* A contract call descriptor (the object handed to handleTx or
  readContract) is reified as a ContractCall value; each helper returns
  the list of contract calls it issues, in order.
* In TypeScript the helpers receive a mutable props object; approveERC20
  assigns to props.onTrySomethingElse.  Mutation is modelled by state
  passing: every helper returns the props object as it stands after the
  call, alongside the calls it issued.
-/

/-- Modelled from the spec: an on-chain address as handed around by the
action layer, abstracted to an identifier plus the validity bit that
assertAddress (utils/toWagmiProvider, outside src/) checks. -/
structure Addr where
  isValid : Bool
  key : Nat
deriving DecidableEq, Repr

/-- Modelled from the spec: assertAddress (utils/toWagmiProvider, outside
src/) raises immediately with a descriptive condition when the address is
undefined or invalid, and otherwise returns it. -/
def assertAddress (a : Option Addr) (label : String) : Except String Addr :=
  match a with
  | none => .error ("assertAddress: " ++ label)
  | some x => if x.isValid then .ok x else .error ("assertAddress: " ++ label)

/-- One argument of a contract call, as encoded into the args array. -/
inductive CallArg where
  | addr : Addr → CallArg
  | num : Int → CallArg
  | addrList : List Addr → CallArg
  | numList : List Int → CallArg
  | flag : Bool → CallArg
  | bytes : String → CallArg
deriving DecidableEq, Repr

/-- A contract call descriptor: the address / functionName / args (and for
payable calls the attached value) object handed to handleTx or
readContract. -/
structure ContractCall where
  address : Addr
  functionName : String
  args : List CallArg
  value : Option Int := none
deriving DecidableEq, Repr

/-- Shared base of the request objects (TWriteTransaction):
contractAddress plus, in place of the connector, the provider account
address that toWagmiProvider resolves it to, and the optional fallback
call stored in onTrySomethingElse (in TypeScript a closure; here the call
that closure would issue). -/
structure TWriteTransactionBase where
  contractAddress : Option Addr
  userAddress : Option Addr
  onTrySomethingElse : Option ContractCall := none
deriving DecidableEq, Repr

/-- MAX_UINT_256 from the web-lib constants. -/
def MAX_UINT_256 : Int := 2 ^ 256 - 1

/-- JavaScript x || d on bigints: 0n is falsy. -/
def jsOrInt (x d : Int) : Int := if x = 0 then d else x

/-- JavaScript x || d where x : bigint | undefined: undefined and 0n are
falsy. -/
def jsOrOpt (x : Option Int) (d : Int) : Int :=
  match x with
  | none => d
  | some v => jsOrInt v d

/-- JavaScript truthiness test !x on bigint | undefined. -/
def jsFalsyOpt (x : Option Int) : Bool :=
  match x with
  | none => true
  | some v => v = 0

/-- toBigInt from the web-lib: undefined becomes 0n. -/
def toBigIntOpt (x : Option Int) : Int := x.getD 0

/-- An assert(cond, msg) call from the assert package: throws msg when the
condition is falsy. -/
def jsAssert (b : Bool) (msg : String) : Except String Unit :=
  if b then .ok () else .error msg

/-! ### isApprovedERC20 (actions.ts lines 25-41) -/

structure TIsApprovedERC20 where
  userAddress : Addr
  contractAddress : Addr
  spenderAddress : Addr
  amount : Option Int := none
deriving DecidableEq, Repr

/-- isApprovedERC20: reads the allowance via readContract and compares
(result || 0n) >= toBigInt(props.amount || MAX_UINT_256).  The allowance
reported by the chain is an oracle input.  Returns the calls issued and
the boolean result (the props object, unchanged, is returned as well for
uniformity with the write helpers). -/
def isApprovedERC20 (props : TIsApprovedERC20) (allowance : Int) :
    TIsApprovedERC20 × List ContractCall × Bool :=
  let readCall : ContractCall :=
    { address := props.contractAddress
      functionName := "allowance"
      args := [.addr props.userAddress, .addr props.spenderAddress] }
  (props, [readCall], decide (jsOrOpt props.amount MAX_UINT_256 ≤ jsOrInt allowance 0))

/-! ### approveERC20 (actions.ts lines 49-73) -/

structure TApproveERC20 extends TWriteTransactionBase where
  spenderAddress : Option Addr
  amount : Int
deriving DecidableEq, Repr

/-- approveERC20: asserts the spender and contract addresses, installs the
alternate-ABI approve closure into props.onTrySomethingElse (a mutation of
the caller's props object, modelled by returning the updated props), then
hands the approve call to handleTx. -/
def approveERC20 (props : TApproveERC20) :
    Except String (TApproveERC20 × List ContractCall) := do
  let spender ← assertAddress props.spenderAddress "spenderAddress"
  let contract ← assertAddress props.contractAddress ""
  let fallbackCall : ContractCall :=
    { address := contract
      functionName := "approve"
      args := [.addr spender, .num props.amount] }
  let props := { props with onTrySomethingElse := some fallbackCall }
  pure (props,
    [{ address := contract
       functionName := "approve"
       args := [.addr spender, .num props.amount] }])

/-! ### approveAllERC721 (actions.ts lines 82-96) -/

structure TApproveAllERC721 extends TWriteTransactionBase where
  spenderAddress : Option Addr
  shouldAllow : Bool
deriving DecidableEq, Repr

/-- approveAllERC721: asserts addresses then issues setApprovalForAll. -/
def approveAllERC721 (props : TApproveAllERC721) :
    Except String (TApproveAllERC721 × List ContractCall) := do
  let spender ← assertAddress props.spenderAddress "spenderAddress"
  let contract ← assertAddress props.contractAddress ""
  pure (props,
    [{ address := contract
       functionName := "setApprovalForAll"
       args := [.addr spender, .flag props.shouldAllow] }])

/-! ### transferERC721 (actions.ts lines 105-121) -/

structure TTransferERC721 extends TWriteTransactionBase where
  receiverAddress : Option Addr
  tokenID : Int
deriving DecidableEq, Repr

/-- transferERC721: asserts receiver, contract and provider addresses,
then issues safeTransferFrom. -/
def transferERC721 (props : TTransferERC721) :
    Except String (TTransferERC721 × List ContractCall) := do
  let receiver ← assertAddress props.receiverAddress "Receiver address"
  let contract ← assertAddress props.contractAddress "Contract address"
  let user ← assertAddress props.userAddress "User address"
  pure (props,
    [{ address := contract
       functionName := "safeTransferFrom"
       args := [.addr user, .addr receiver, .num props.tokenID] }])

/-! ### batchTransferERC721 (actions.ts lines 131-147) -/

structure TBatchTransferERC721 extends TWriteTransactionBase where
  collectionAddress : Option Addr
  receiverAddress : Option Addr
  tokenIDs : List Int
deriving DecidableEq, Repr

/-- batchTransferERC721: asserts collection, receiver and contract
addresses, then issues migrate on the NFT migratooor contract. -/
def batchTransferERC721 (props : TBatchTransferERC721) :
    Except String (TBatchTransferERC721 × List ContractCall) := do
  let collection ← assertAddress props.collectionAddress "Collection address"
  let receiver ← assertAddress props.receiverAddress "Receiver address"
  let contract ← assertAddress props.contractAddress "Contract address"
  pure (props,
    [{ address := contract
       functionName := "migrate"
       args := [.addr collection, .addr receiver, .numList props.tokenIDs] }])

/-! ### transferERC1155 (actions.ts lines 158-191) and listERC1155
(actions.ts lines 193-217) -/

structure TTransferERC1155 extends TWriteTransactionBase where
  receiverAddress : Option Addr
  tokenIDs : List Int
deriving DecidableEq, Repr

structure TListERC1155 extends TWriteTransactionBase where
  tokenIDs : List Int
deriving DecidableEq, Repr

/-- The shared filtering loop of transferERC1155 and listERC1155:
for i in [0, tokenIDs.length), push tokenIDs[i] and balanceOfBatch[i]
whenever balanceOfBatch[i] > 0n.  Structural recursion over both lists is
equivalent to the indexed loop: when balanceOfBatch runs out of entries,
the JavaScript comparison undefined > 0n is false, so the remaining ids
are dropped. -/
def filterBalances : List Int → List Int → List Int × List Int
  | [], _ => ([], [])
  | _ :: _, [] => ([], [])
  | t :: ts, b :: bs =>
      let rest := filterBalances ts bs
      if b > 0 then (t :: rest.1, b :: rest.2) else rest

/-- The balanceOfBatch read both ERC1155 helpers issue:
args are [Array(tokenIDs.length).fill(user), tokenIDs]. -/
def balanceOfBatchCall (contract user : Addr) (tokenIDs : List Int) : ContractCall :=
  { address := contract
    functionName := "balanceOfBatch"
    args := [.addrList (List.replicate tokenIDs.length user), .numList tokenIDs] }

/-- transferERC1155: asserts receiver, contract and provider addresses,
reads balanceOfBatch (the balances list is the oracle input), drops the
token ids whose balance is not > 0n, asserts the filtered list is
nonempty, and issues safeBatchTransferFrom with the filtered ids and
amounts and data 0x. -/
def transferERC1155 (props : TTransferERC1155) (balances : List Int) :
    Except String (TTransferERC1155 × List ContractCall) := do
  let receiver ← assertAddress props.receiverAddress "Receiver address"
  let contract ← assertAddress props.contractAddress "Contract address"
  let user ← assertAddress props.userAddress "User address"
  let readCall := balanceOfBatchCall contract user props.tokenIDs
  let filtered := filterBalances props.tokenIDs balances
  jsAssert (decide (0 < filtered.1.length)) "No tokens to transfer"
  pure (props,
    [readCall,
     { address := contract
       functionName := "safeBatchTransferFrom"
       args := [.addr user, .addr receiver, .numList filtered.1,
                .numList filtered.2, .bytes "0x"] }])

/-- listERC1155: asserts contract and provider addresses, reads
balanceOfBatch, and returns the filtered ids and amounts without any
nonemptiness assertion. -/
def listERC1155 (props : TListERC1155) (balances : List Int) :
    Except String (TListERC1155 × List ContractCall × (List Int × List Int)) := do
  let contract ← assertAddress props.contractAddress "Contract address"
  let user ← assertAddress props.userAddress "User address"
  let readCall := balanceOfBatchCall contract user props.tokenIDs
  let filtered := filterBalances props.tokenIDs balances
  pure (props, [readCall], filtered)

/-! ### transferERC20 (actions.ts lines 225-239) -/

structure TTransferERC20 extends TWriteTransactionBase where
  receiverAddress : Option Addr
  amount : Int
deriving DecidableEq, Repr

/-- transferERC20: asserts receiver and contract addresses, then issues
transfer. -/
def transferERC20 (props : TTransferERC20) :
    Except String (TTransferERC20 × List ContractCall) := do
  let receiver ← assertAddress props.receiverAddress "receiverAddress"
  let contract ← assertAddress props.contractAddress ""
  pure (props,
    [{ address := contract
       functionName := "transfer"
       args := [.addr receiver, .num props.amount] }])

/-! ### disperseETH (actions.ts lines 308-329) and disperseERC20
(actions.ts lines 338-360) -/

structure TDisperseETH extends TWriteTransactionBase where
  receivers : List Addr
  amounts : List Int
deriving DecidableEq, Repr

structure TDisperseERC20 extends TWriteTransactionBase where
  tokenToDisperse : Option Addr
  receivers : List Addr
  amounts : List Int
deriving DecidableEq, Repr

/-- The loop for (const receiver of receivers) assertAddress(receiver,
receiver). -/
def assertReceivers : List Addr → Except String Unit
  | [] => .ok ()
  | r :: rs => do
      let _ ← assertAddress (some r) "receiver"
      assertReceivers rs

/-- The loop for (const amount of amounts) assert(amount > 0n, ...). -/
def assertAmountsPositive : List Int → Except String Unit
  | [] => .ok ()
  | a :: rest => do
      jsAssert (decide (0 < a)) "amount must be greater than 0"
      assertAmountsPositive rest

/-- disperseETH: asserts the contract address, every receiver, every
amount positive, and equal lengths; then issues disperseEther with the
receivers and amounts unchanged and value = amounts.reduce((a, b) => a + b, 0n). -/
def disperseETH (props : TDisperseETH) :
    Except String (TDisperseETH × List ContractCall) := do
  let contract ← assertAddress props.contractAddress ""
  assertReceivers props.receivers
  assertAmountsPositive props.amounts
  jsAssert (decide (props.receivers.length = props.amounts.length))
    "receivers and amounts must be the same length"
  pure (props,
    [{ address := contract
       functionName := "disperseEther"
       args := [.addrList props.receivers, .numList props.amounts]
       value := some (props.amounts.foldl (· + ·) 0) }])

/-- disperseERC20: asserts the token and contract addresses, every
receiver, every amount positive, and equal lengths; then issues
disperseToken with the token, receivers and amounts. -/
def disperseERC20 (props : TDisperseERC20) :
    Except String (TDisperseERC20 × List ContractCall) := do
  let token ← assertAddress props.tokenToDisperse "The tokenToDisperse"
  let contract ← assertAddress props.contractAddress ""
  assertReceivers props.receivers
  assertAmountsPositive props.amounts
  jsAssert (decide (props.receivers.length = props.amounts.length))
    "receivers and amounts must be the same length"
  pure (props,
    [{ address := contract
       functionName := "disperseToken"
       args := [.addr token, .addrList props.receivers, .numList props.amounts] }])

/-! ### transferEther (actions.ts lines 250-299) -/

/-- Transaction status reported through props.statusHandler: the code
emits defaultTxStatus with exactly one of pending / success / error set
(the finally block also schedules a reset to the plain defaultTxStatus
via setTimeout after 3000 ms; that deferred real-time callback is outside
the synchronous behaviour modelled here). -/
inductive TxStatus where
  | pending
  | success
  | errored
deriving DecidableEq, Repr

/-- A mined transaction receipt as returned by waitForTransaction; the
code only inspects its status string. -/
structure Receipt where
  status : String
deriving DecidableEq, Repr

/-- TTxResponse: success flag plus optionally the receipt or the caught
error. -/
structure TTxResponse where
  isSuccessful : Bool
  receipt : Option Receipt := none
  error : Option String := none
deriving DecidableEq, Repr

/-- Oracle for the external wagmi/viem primitives transferEther awaits:
prepareGas models prepareSendTransaction, yielding for a requested value
the estimated gas and maxPriorityFeePerGas of the returned config;
gasPrice models getPublicClient().getGasPrice(); sendTx models
sendTransaction, yielding the hash for the final (value, gas, fee)
config; waitTx models waitForTransaction on that hash.  Each may throw. -/
structure EthEnv where
  prepareGas : Int → Except String (Option Int × Option Int)
  gasPrice : Except String Int
  sendTx : Int → Except String Nat
  waitTx : Nat → Except String Receipt

/-- Request object of transferEther (TWriteTransaction without
contractAddress): the provider account address stands in for the
connector, and hasStatusHandler records whether the optional
statusHandler callback was supplied. -/
structure TTransferEther where
  userAddress : Option Addr
  receiverAddress : Option Addr
  amount : Int
  shouldAdjustForGas : Bool := false
  hasStatusHandler : Bool := true
deriving DecidableEq, Repr

/-- One props.statusHandler?.(...) call: emits nothing when no handler
was supplied. -/
def emitStatus (props : TTransferEther) (s : TxStatus) : List TxStatus :=
  if props.hasStatusHandler then [s] else []

/-- The maxPriorityFeePerGas finally present on the first config: when
!config.maxPriorityFeePerGas (undefined or 0n) the code fetches the gas
price from the public client and assigns it. -/
def resolveMaxPriorityFee (env : EthEnv) (mp : Option Int) : Except String Int :=
  if jsFalsyOpt mp then env.gasPrice else pure (toBigIntOpt mp)

/-- The adjusted value: props.amount - newAmount where
newAmount = toBigInt(config.gas) * toBigInt(config.maxPriorityFeePerGas) + 21000n. -/
def gasAdjustedValue (amount gas mp : Int) : Int := amount - (gas * mp + 21000)

/-- The try block of transferEther: prepare the transaction for the
requested amount; when shouldAdjustForGas, resolve the priority fee,
recompute the value and prepare again; then send and await the receipt.
Returns the value of the config finally sent, together with the
receipt. -/
def transferEtherTry (props : TTransferEther) (env : EthEnv) :
    Except String (Int × Receipt) := do
  let (gas0, mp0) ← env.prepareGas props.amount
  let finalValue ←
    if props.shouldAdjustForGas then do
      let mp ← resolveMaxPriorityFee env mp0
      let newValue := gasAdjustedValue props.amount (toBigIntOpt gas0) mp
      let (_gas1, _mp1) ← env.prepareGas newValue
      pure newValue
    else
      pure props.amount
  let hash ← env.sendTx finalValue
  let receipt ← env.waitTx hash
  pure (finalValue, receipt)

/-- Observable outcome of one transferEther call: the statuses emitted
through the callback, the value of the config handed to sendTransaction
when the try block completed, and the returned TTxResponse. -/
structure EtherOut where
  statuses : List TxStatus
  finalValue : Option Int
  result : TTxResponse
deriving DecidableEq, Repr

/-- transferEther: asserts the receiver address, reports pending, asserts
the provider account address, then runs the try block; on success the
status success / error is reported according to receipt.status and the
response carries isSuccessful = (receipt.status === success) with the
receipt; any exception inside the try block is caught, reported as an
error status, and returned as a failure response carrying the error.
Exceptions thrown before the try block (the address assertions)
propagate to the caller. -/
def transferEther (props : TTransferEther) (env : EthEnv) :
    Except String EtherOut := do
  let _receiver ← assertAddress props.receiverAddress "receiverAddress"
  let st0 := emitStatus props .pending
  let _user ← assertAddress props.userAddress "userAddress"
  match transferEtherTry props env with
  | .ok (finalValue, receipt) =>
      let st1 :=
        if receipt.status = "success" then emitStatus props .success
        else if receipt.status = "reverted" then emitStatus props .errored
        else []
      pure { statuses := st0 ++ st1
             finalValue := some finalValue
             result := { isSuccessful := receipt.status = "success"
                         receipt := some receipt } }
  | .error e =>
      pure { statuses := st0 ++ emitStatus props .errored
             finalValue := none
             result := { isSuccessful := false, error := some e } }

/-! ### Auxiliary predicates and sample inputs -/

/-- The addresses assertAddress accepts: present and valid. -/
def validAddr : Option Addr → Bool
  | none => false
  | some x => x.isValid

/-- Sample valid address. -/
def addrOkA : Addr := ⟨true, 1⟩

/-- Sample valid address. -/
def addrOkB : Addr := ⟨true, 2⟩

/-- Sample valid address. -/
def addrOkC : Addr := ⟨true, 3⟩

/-- Sample valid address. -/
def addrOkD : Addr := ⟨true, 4⟩

/-- Sample environment in which every external primitive succeeds. -/
def sampleEnvOk : EthEnv :=
  { prepareGas := fun _ => .ok (some 100, some 2)
    gasPrice := .ok 5
    sendTx := fun _ => .ok 42
    waitTx := fun _ => .ok ⟨"success"⟩ }

/-- Sample environment in which sendTransaction throws. -/
def sampleEnvSendFails : EthEnv :=
  { prepareGas := fun _ => .ok (some 100, some 2)
    gasPrice := .ok 5
    sendTx := fun _ => .error "send failed"
    waitTx := fun _ => .ok ⟨"success"⟩ }

/-- The set of contract function names the spec claims is the module's
boundary. -/
def claimedContractFunctionNames : List String :=
  ["transfer", "approve", "setApprovalForAll", "safeTransferFrom",
   "safeBatchTransferFrom", "balanceOfBatch", "migrate", "disperseEther",
   "disperseToken"]

/-- The contract function names the module actually invokes: the claimed
set plus the allowance read issued by isApprovedERC20. -/
def moduleContractFunctionNames : List String :=
  "allowance" :: claimedContractFunctionNames

/-! ### Helper lemmas -/

theorem exceptBind_ok {α β : Type} (a : α) (f : α → Except String β) :
    (Except.ok a >>= f) = f a := rfl

theorem exceptBind_error {α β : Type} (e : String) (f : α → Except String β) :
    ((Except.error e : Except String α) >>= f) = Except.error e := rfl

theorem exceptPure_eval {α : Type} (a : α) : (pure a : Except String α) = Except.ok a := rfl

theorem isOk_ok {α : Type} (a : α) : (Except.ok a : Except String α).isOk = true := rfl

theorem isOk_error {α : Type} (e : String) :
    (Except.error e : Except String α).isOk = false := rfl

theorem assertAddress_eq_ok {a : Option Addr} {label : String} {x : Addr} :
    assertAddress a label = .ok x ↔ a = some x ∧ x.isValid = true := by
  constructor
  · intro h
    cases a with
    | none => exact absurd h (by simp [assertAddress])
    | some v =>
        by_cases hv : v.isValid
        · have hvx : v = x := by simpa [assertAddress, hv] using h
          subst hvx
          exact ⟨rfl, hv⟩
        · exact absurd h (by simp [assertAddress, hv])
  · rintro ⟨rfl, hv⟩
    simp [assertAddress, hv]

theorem assertAddress_isOk (a : Option Addr) (label : String) :
    (assertAddress a label).isOk = validAddr a := by
  cases a with
  | none => rfl
  | some v => by_cases h : v.isValid <;> simp [assertAddress, validAddr, h, isOk_ok, isOk_error]

theorem assertAddress_valid_ok {a : Option Addr} (label : String)
    (h : validAddr a = true) : ∃ x, assertAddress a label = .ok x ∧ a = some x := by
  cases a with
  | none => simp [validAddr] at h
  | some v => exact ⟨v, by simp [assertAddress, validAddr] at h ⊢; simp [h], rfl⟩

theorem jsAssert_isOk (b : Bool) (msg : String) : (jsAssert b msg).isOk = b := by
  cases b <;> rfl

theorem jsAssert_true {b : Bool} {msg : String} (h : b = true) :
    jsAssert b msg = .ok () := by
  subst h; rfl

theorem assertReceivers_isOk (rs : List Addr) :
    (assertReceivers rs).isOk = rs.all Addr.isValid := by
  induction rs with
  | nil => rfl
  | cons r rs ih =>
      by_cases h : r.isValid <;>
        simp [assertReceivers, assertAddress, h, exceptBind_ok, exceptBind_error,
          isOk_error, ih]

theorem assertReceivers_all {rs : List Addr} (h : rs.all Addr.isValid = true) :
    assertReceivers rs = .ok () := by
  induction rs with
  | nil => rfl
  | cons r rs ih =>
      simp only [List.all_cons, Bool.and_eq_true] at h
      simp [assertReceivers, assertAddress, h.1, exceptBind_ok, ih h.2]

theorem assertAmountsPositive_isOk (amts : List Int) :
    (assertAmountsPositive amts).isOk = amts.all (fun a => decide (0 < a)) := by
  induction amts with
  | nil => rfl
  | cons a amts ih =>
      by_cases h : 0 < a <;>
        simp [assertAmountsPositive, jsAssert, h, exceptBind_ok, exceptBind_error,
          isOk_error, ih]

theorem assertAmountsPositive_all {amts : List Int}
    (h : amts.all (fun a => decide (0 < a)) = true) :
    assertAmountsPositive amts = .ok () := by
  induction amts with
  | nil => rfl
  | cons a amts ih =>
      simp only [List.all_cons, Bool.and_eq_true] at h
      simp [assertAmountsPositive, jsAssert, h.1, exceptBind_ok, ih h.2]

theorem filterBalances_eq (ts bs : List Int) :
    filterBalances ts bs =
      (((ts.zip bs).filter fun p => decide (0 < p.2)).map Prod.fst,
       ((ts.zip bs).filter fun p => decide (0 < p.2)).map Prod.snd) := by
  induction ts generalizing bs with
  | nil => simp [filterBalances]
  | cons t ts ih =>
      cases bs with
      | nil => simp [filterBalances]
      | cons b bs =>
          by_cases hb : (0 : Int) < b <;> simp [filterBalances, hb, ih]

theorem map_fst_zip_sublist (ts bs : List Int) :
    ((ts.zip bs).map Prod.fst).Sublist ts := by
  induction ts generalizing bs with
  | nil => simp
  | cons t ts ih =>
      cases bs with
      | nil => simp
      | cons b bs =>
          simpa using (ih bs).cons₂ t

theorem zipFilter_fst_sublist (ts bs : List Int) :
    (((ts.zip bs).filter fun p => decide (0 < p.2)).map Prod.fst).Sublist ts :=
  ((List.filter_sublist _).map Prod.fst).trans (map_fst_zip_sublist ts bs)

/-- C1: a successful transferERC1155 call issues exactly the balanceOfBatch
read and then a safeBatchTransferFrom whose token-id and amount lists are
the pairs of (input token id, queried balance) with balance strictly
positive, in input order; equivalently, the transferred ids form the
subsequence of the input tokenIDs with positive queried balance, paired
position by position with those balances. -/
theorem transferERC1155_filters_zero_balances
    (props : TTransferERC1155) (balances : List Int)
    (out : TTransferERC1155 × List ContractCall)
    (h : transferERC1155 props balances = .ok out) :
    ∃ contract user receiver,
      assertAddress props.contractAddress "Contract address" = .ok contract ∧
      assertAddress props.userAddress "User address" = .ok user ∧
      assertAddress props.receiverAddress "Receiver address" = .ok receiver ∧
      out.2 = [balanceOfBatchCall contract user props.tokenIDs,
               { address := contract
                 functionName := "safeBatchTransferFrom"
                 args := [.addr user, .addr receiver,
                          .numList (((props.tokenIDs.zip balances).filter
                            fun p => decide (0 < p.2)).map Prod.fst),
                          .numList (((props.tokenIDs.zip balances).filter
                            fun p => decide (0 < p.2)).map Prod.snd),
                          .bytes "0x"] }] ∧
      (((props.tokenIDs.zip balances).filter
        fun p => decide (0 < p.2)).map Prod.fst).Sublist props.tokenIDs := by
  simp only [transferERC1155] at h
  cases hrecv : assertAddress props.receiverAddress "Receiver address" with
  | error e => rw [hrecv, exceptBind_error] at h; cases h
  | ok receiver =>
  rw [hrecv, exceptBind_ok] at h
  cases hcon : assertAddress props.contractAddress "Contract address" with
  | error e => rw [hcon, exceptBind_error] at h; cases h
  | ok contract =>
  rw [hcon, exceptBind_ok] at h
  cases huser : assertAddress props.userAddress "User address" with
  | error e => rw [huser, exceptBind_error] at h; cases h
  | ok user =>
  rw [huser, exceptBind_ok] at h
  simp only [jsAssert] at h
  split at h
  · rw [exceptBind_ok, exceptPure_eval] at h
    injection h with h2
    subst h2
    exact ⟨contract, user, receiver, rfl, rfl, rfl,
      by simp [filterBalances_eq], zipFilter_fst_sublist _ _⟩
  · rw [exceptBind_error] at h; cases h

/-- Witness for C1: a concrete transferERC1155 call with balances [5, 0, 7]
for token ids [10, 11, 12] transfers ids [10, 12] with amounts [5, 7]. -/
theorem transferERC1155_filters_zero_balances_witness :
    transferERC1155
        { contractAddress := some addrOkA
          userAddress := some addrOkB
          receiverAddress := some addrOkC
          tokenIDs := [10, 11, 12] } [5, 0, 7] =
      Except.ok
        ({ contractAddress := some addrOkA
           userAddress := some addrOkB
           receiverAddress := some addrOkC
           tokenIDs := [10, 11, 12] },
         [balanceOfBatchCall addrOkA addrOkB [10, 11, 12],
          { address := addrOkA
            functionName := "safeBatchTransferFrom"
            args := [.addr addrOkB, .addr addrOkC, .numList [10, 12],
                     .numList [5, 7], .bytes "0x"] }]) ∧
    (∃ contract user receiver,
      assertAddress (some addrOkA) "Contract address" = .ok contract ∧
      assertAddress (some addrOkB) "User address" = .ok user ∧
      assertAddress (some addrOkC) "Receiver address" = .ok receiver ∧
      [balanceOfBatchCall addrOkA addrOkB [10, 11, 12],
       { address := addrOkA
         functionName := "safeBatchTransferFrom"
         args := [.addr addrOkB, .addr addrOkC, .numList [10, 12],
                  .numList [5, 7], .bytes "0x"] }] =
        [balanceOfBatchCall contract user [10, 11, 12],
         { address := contract
           functionName := "safeBatchTransferFrom"
           args := [.addr user, .addr receiver, .numList [10, 12],
                    .numList [5, 7], .bytes "0x"] }] ∧
      ([10, 12] : List Int).Sublist [10, 11, 12]) :=
  ⟨rfl,
   transferERC1155_filters_zero_balances
     { contractAddress := some addrOkA
       userAddress := some addrOkB
       receiverAddress := some addrOkC
       tokenIDs := [10, 11, 12] } [5, 0, 7] _ rfl⟩

theorem filterBalances_same_length (ts bs : List Int) :
    (filterBalances ts bs).1.length = (filterBalances ts bs).2.length := by
  simp [filterBalances_eq]

theorem filterBalances_snd_pos (ts bs : List Int) :
    ∀ a ∈ (filterBalances ts bs).2, 0 < a := by
  rw [filterBalances_eq]
  intro a ha
  simp only [List.mem_map] at ha
  obtain ⟨p, hp, rfl⟩ := ha
  exact of_decide_eq_true (List.mem_filter.mp hp).2

theorem filterBalances_fst_sublist (ts bs : List Int) :
    (filterBalances ts bs).1.Sublist ts := by
  rw [filterBalances_eq]
  exact zipFilter_fst_sublist ts bs

/-- C10: every successful listERC1155 call returns arrays of equal length
with all amounts strictly positive and the ids a subsequence of the input
tokenIDs; after its address assertions it never raises, even when the
filtered arrays are empty, whereas transferERC1155 raises when the
filtered arrays are empty. -/
theorem listERC1155_invariants :
    (∀ (props : TListERC1155) (balances : List Int)
        (out : TListERC1155 × List ContractCall × (List Int × List Int)),
        listERC1155 props balances = .ok out →
        out.2.2.1.length = out.2.2.2.length ∧
        (∀ a ∈ out.2.2.2, 0 < a) ∧
        out.2.2.1.Sublist props.tokenIDs) ∧
    (∀ (props : TListERC1155) (balances : List Int),
        validAddr props.contractAddress = true →
        validAddr props.userAddress = true →
        (listERC1155 props balances).isOk = true) ∧
    (∀ (props : TTransferERC1155) (balances : List Int),
        validAddr props.receiverAddress = true →
        validAddr props.contractAddress = true →
        validAddr props.userAddress = true →
        filterBalances props.tokenIDs balances = ([], []) →
        transferERC1155 props balances = .error "No tokens to transfer") := by
  refine ⟨?_, ?_, ?_⟩
  · intro props balances out h
    simp only [listERC1155] at h
    cases hcon : assertAddress props.contractAddress "Contract address" with
    | error e => rw [hcon, exceptBind_error] at h; cases h
    | ok contract =>
    rw [hcon, exceptBind_ok] at h
    cases huser : assertAddress props.userAddress "User address" with
    | error e => rw [huser, exceptBind_error] at h; cases h
    | ok user =>
    rw [huser, exceptBind_ok, exceptPure_eval] at h
    injection h with h2
    subst h2
    exact ⟨filterBalances_same_length _ _, filterBalances_snd_pos _ _,
      filterBalances_fst_sublist _ _⟩
  · intro props balances hcon huser
    obtain ⟨c, hc, -⟩ := assertAddress_valid_ok "Contract address" hcon
    obtain ⟨u, hu, -⟩ := assertAddress_valid_ok "User address" huser
    simp only [listERC1155]
    rw [hc, exceptBind_ok, hu, exceptBind_ok, exceptPure_eval, isOk_ok]
  · intro props balances hrecv hcon huser hfil
    obtain ⟨r, hr, -⟩ := assertAddress_valid_ok "Receiver address" hrecv
    obtain ⟨c, hc, -⟩ := assertAddress_valid_ok "Contract address" hcon
    obtain ⟨u, hu, -⟩ := assertAddress_valid_ok "User address" huser
    simp only [transferERC1155]
    rw [hr, exceptBind_ok, hc, exceptBind_ok, hu, exceptBind_ok]
    simp [jsAssert, hfil]

/-- Witness for C10 at concrete inputs: listing with balances [0, 3]
returns ids [21] and amounts [3], and listing is ok while transferring
raises when every balance is 0. -/
theorem listERC1155_invariants_witness :
    (([21] : List Int).length = ([3] : List Int).length ∧
      (∀ a ∈ ([3] : List Int), 0 < a) ∧
      ([21] : List Int).Sublist [20, 21]) ∧
    (listERC1155
        { contractAddress := some addrOkA
          userAddress := some addrOkB
          tokenIDs := [20, 21] } [0, 0]).isOk = true ∧
    transferERC1155
        { contractAddress := some addrOkA
          userAddress := some addrOkB
          receiverAddress := some addrOkC
          tokenIDs := [20, 21] } [0, 0] = .error "No tokens to transfer" :=
  ⟨listERC1155_invariants.1
      { contractAddress := some addrOkA
        userAddress := some addrOkB
        tokenIDs := [20, 21] } [0, 3] _ rfl,
   listERC1155_invariants.2.1
      { contractAddress := some addrOkA
        userAddress := some addrOkB
        tokenIDs := [20, 21] } [0, 0] rfl rfl,
   listERC1155_invariants.2.2
      { contractAddress := some addrOkA
        userAddress := some addrOkB
        receiverAddress := some addrOkC
        tokenIDs := [20, 21] } [0, 0] rfl rfl rfl rfl⟩

theorem foldl_add_eq_sum (l : List Int) : l.foldl (· + ·) 0 = l.sum := by
  rw [List.sum_eq_foldl]

/-- C2: a successful disperseETH call issues exactly one disperseEther
call whose receivers and amounts are the input lists unchanged and whose
attached value is the arithmetic sum of the amounts (0 for an empty
list). -/
theorem disperseETH_value_is_sum (props : TDisperseETH)
    (out : TDisperseETH × List ContractCall)
    (h : disperseETH props = .ok out) :
    ∃ contract,
      assertAddress props.contractAddress "" = .ok contract ∧
      out.2 = [{ address := contract
                 functionName := "disperseEther"
                 args := [.addrList props.receivers, .numList props.amounts]
                 value := some props.amounts.sum }] := by
  simp only [disperseETH] at h
  cases hcon : assertAddress props.contractAddress "" with
  | error e => rw [hcon, exceptBind_error] at h; cases h
  | ok contract =>
  rw [hcon, exceptBind_ok] at h
  cases hrecv : assertReceivers props.receivers with
  | error e => rw [hrecv, exceptBind_error] at h; cases h
  | ok urecv =>
  rw [hrecv, exceptBind_ok] at h
  cases hamt : assertAmountsPositive props.amounts with
  | error e => rw [hamt, exceptBind_error] at h; cases h
  | ok uamt =>
  rw [hamt, exceptBind_ok] at h
  simp only [jsAssert] at h
  split at h
  · rw [exceptBind_ok, exceptPure_eval] at h
    injection h with h2
    subst h2
    exact ⟨contract, rfl, by simp [foldl_add_eq_sum]⟩
  · rw [exceptBind_error] at h; cases h

/-- Witness for C2 at a concrete input: dispersing [3, 4] attaches
value 7. -/
theorem disperseETH_value_is_sum_witness :
    disperseETH
        { contractAddress := some addrOkA
          userAddress := none
          receivers := [addrOkB, addrOkC]
          amounts := [3, 4] } =
      Except.ok
        ({ contractAddress := some addrOkA
           userAddress := none
           receivers := [addrOkB, addrOkC]
           amounts := [3, 4] },
         [{ address := addrOkA
            functionName := "disperseEther"
            args := [.addrList [addrOkB, addrOkC], .numList [3, 4]]
            value := some 7 }]) ∧
    (∃ contract,
      assertAddress (some addrOkA) "" = .ok contract ∧
      [({ address := addrOkA
          functionName := "disperseEther"
          args := [.addrList [addrOkB, addrOkC], .numList [3, 4]]
          value := some 7 } : ContractCall)] =
        [{ address := contract
           functionName := "disperseEther"
           args := [.addrList [addrOkB, addrOkC], .numList [3, 4]]
           value := some 7 }]) :=
  ⟨rfl,
   disperseETH_value_is_sum
     { contractAddress := some addrOkA
       userAddress := none
       receivers := [addrOkB, addrOkC]
       amounts := [3, 4] } _ rfl⟩

/-- C3 counterexample: an empty receivers/amounts batch passes validation
in both disperseETH and disperseERC20 - no exception is raised, the call
proceeds - contradicting the claim that an empty batch is a validation
failure that raises. -/
theorem disperse_empty_batch_not_rejected :
    (disperseETH
        { contractAddress := some addrOkA
          userAddress := none
          receivers := []
          amounts := [] }).isOk = true ∧
    (disperseERC20
        { contractAddress := some addrOkA
          userAddress := none
          tokenToDisperse := some addrOkB
          receivers := []
          amounts := [] }).isOk = true := by
  exact ⟨rfl, rfl⟩

theorem disperseETH_ok_iff (props : TDisperseETH) :
    (disperseETH props).isOk = true ↔
      validAddr props.contractAddress = true ∧
      props.receivers.all Addr.isValid = true ∧
      props.amounts.all (fun a => decide (0 < a)) = true ∧
      props.receivers.length = props.amounts.length := by
  constructor
  · intro h
    simp only [disperseETH] at h
    cases hcon : assertAddress props.contractAddress "" with
    | error e => rw [hcon, exceptBind_error] at h; exact absurd h (by simp [isOk_error])
    | ok c =>
    have h1 : validAddr props.contractAddress = true := by
      rw [← assertAddress_isOk props.contractAddress "", hcon]; rfl
    rw [hcon, exceptBind_ok] at h
    cases hrecv : assertReceivers props.receivers with
    | error e => rw [hrecv, exceptBind_error] at h; exact absurd h (by simp [isOk_error])
    | ok urecv =>
    have h2 : props.receivers.all Addr.isValid = true := by
      rw [← assertReceivers_isOk, hrecv]; rfl
    rw [hrecv, exceptBind_ok] at h
    cases hamt : assertAmountsPositive props.amounts with
    | error e => rw [hamt, exceptBind_error] at h; exact absurd h (by simp [isOk_error])
    | ok uamt =>
    have h3 : props.amounts.all (fun a => decide (0 < a)) = true := by
      rw [← assertAmountsPositive_isOk, hamt]; rfl
    rw [hamt, exceptBind_ok] at h
    by_cases hl : props.receivers.length = props.amounts.length
    · exact ⟨h1, h2, h3, hl⟩
    · rw [jsAssert, if_neg (by simpa using hl), exceptBind_error] at h
      exact absurd h (by simp [isOk_error])
  · rintro ⟨h1, h2, h3, h4⟩
    obtain ⟨c, hc, -⟩ := assertAddress_valid_ok "" h1
    simp only [disperseETH]
    rw [hc, exceptBind_ok, assertReceivers_all h2, exceptBind_ok,
        assertAmountsPositive_all h3, exceptBind_ok,
        jsAssert_true (by simp [h4]), exceptBind_ok, exceptPure_eval, isOk_ok]

theorem disperseERC20_ok_iff (props : TDisperseERC20) :
    (disperseERC20 props).isOk = true ↔
      validAddr props.tokenToDisperse = true ∧
      validAddr props.contractAddress = true ∧
      props.receivers.all Addr.isValid = true ∧
      props.amounts.all (fun a => decide (0 < a)) = true ∧
      props.receivers.length = props.amounts.length := by
  constructor
  · intro h
    simp only [disperseERC20] at h
    cases htok : assertAddress props.tokenToDisperse "The tokenToDisperse" with
    | error e => rw [htok, exceptBind_error] at h; exact absurd h (by simp [isOk_error])
    | ok t =>
    have h0 : validAddr props.tokenToDisperse = true := by
      rw [← assertAddress_isOk props.tokenToDisperse "The tokenToDisperse", htok]; rfl
    rw [htok, exceptBind_ok] at h
    cases hcon : assertAddress props.contractAddress "" with
    | error e => rw [hcon, exceptBind_error] at h; exact absurd h (by simp [isOk_error])
    | ok c =>
    have h1 : validAddr props.contractAddress = true := by
      rw [← assertAddress_isOk props.contractAddress "", hcon]; rfl
    rw [hcon, exceptBind_ok] at h
    cases hrecv : assertReceivers props.receivers with
    | error e => rw [hrecv, exceptBind_error] at h; exact absurd h (by simp [isOk_error])
    | ok urecv =>
    have h2 : props.receivers.all Addr.isValid = true := by
      rw [← assertReceivers_isOk, hrecv]; rfl
    rw [hrecv, exceptBind_ok] at h
    cases hamt : assertAmountsPositive props.amounts with
    | error e => rw [hamt, exceptBind_error] at h; exact absurd h (by simp [isOk_error])
    | ok uamt =>
    have h3 : props.amounts.all (fun a => decide (0 < a)) = true := by
      rw [← assertAmountsPositive_isOk, hamt]; rfl
    rw [hamt, exceptBind_ok] at h
    by_cases hl : props.receivers.length = props.amounts.length
    · exact ⟨h0, h1, h2, h3, hl⟩
    · rw [jsAssert, if_neg (by simpa using hl), exceptBind_error] at h
      exact absurd h (by simp [isOk_error])
  · rintro ⟨h0, h1, h2, h3, h4⟩
    obtain ⟨t, ht, -⟩ := assertAddress_valid_ok "The tokenToDisperse" h0
    obtain ⟨c, hc, -⟩ := assertAddress_valid_ok "" h1
    simp only [disperseERC20]
    rw [ht, exceptBind_ok, hc, exceptBind_ok, assertReceivers_all h2, exceptBind_ok,
        assertAmountsPositive_all h3, exceptBind_ok,
        jsAssert_true (by simp [h4]), exceptBind_ok, exceptPure_eval, isOk_ok]

/-- C3 (amended): disperseETH and disperseERC20 raise immediately, before
any transaction is submitted, if and only if some input is invalid in the
sense actually checked: an invalid address (contract, token for
disperseERC20, or any receiver), a non-positive amount, or mismatched
receivers/amounts lengths.  An empty receivers/amounts batch is NOT a
validation failure: both functions accept it. -/
theorem disperse_validation_raises_iff :
    (∀ props : TDisperseETH,
      (disperseETH props).isOk = true ↔
        validAddr props.contractAddress = true ∧
        props.receivers.all Addr.isValid = true ∧
        props.amounts.all (fun a => decide (0 < a)) = true ∧
        props.receivers.length = props.amounts.length) ∧
    (∀ props : TDisperseERC20,
      (disperseERC20 props).isOk = true ↔
        validAddr props.tokenToDisperse = true ∧
        validAddr props.contractAddress = true ∧
        props.receivers.all Addr.isValid = true ∧
        props.amounts.all (fun a => decide (0 < a)) = true ∧
        props.receivers.length = props.amounts.length) :=
  ⟨disperseETH_ok_iff, disperseERC20_ok_iff⟩

/-- C4 counterexample: isApprovedERC20 issues a contract call (the
readContract allowance query) whose function name allowance lies outside
the set the claim states is exhaustive. -/
theorem isApprovedERC20_calls_allowance :
    ((isApprovedERC20
        { userAddress := addrOkA
          contractAddress := addrOkB
          spenderAddress := addrOkC } 0).2.1.map ContractCall.functionName) =
      ["allowance"] ∧
    "allowance" ∉ claimedContractFunctionNames :=
  ⟨rfl, by decide⟩

/-- C4 (amended): every contract call issued by any helper of the module
has its function name in the claimed set extended with allowance (the
read isApprovedERC20 issues); no helper calls anything else. -/
theorem helpers_call_only_module_functions :
    (∀ (props : TIsApprovedERC20) (allowance : Int),
      ∀ c ∈ (isApprovedERC20 props allowance).2.1,
        c.functionName ∈ moduleContractFunctionNames) ∧
    (∀ (props : TApproveERC20) out, approveERC20 props = .ok out →
      ∀ c ∈ out.2, c.functionName ∈ moduleContractFunctionNames) ∧
    (∀ (props : TApproveAllERC721) out, approveAllERC721 props = .ok out →
      ∀ c ∈ out.2, c.functionName ∈ moduleContractFunctionNames) ∧
    (∀ (props : TTransferERC721) out, transferERC721 props = .ok out →
      ∀ c ∈ out.2, c.functionName ∈ moduleContractFunctionNames) ∧
    (∀ (props : TBatchTransferERC721) out, batchTransferERC721 props = .ok out →
      ∀ c ∈ out.2, c.functionName ∈ moduleContractFunctionNames) ∧
    (∀ (props : TTransferERC1155) (balances : List Int) out,
      transferERC1155 props balances = .ok out →
      ∀ c ∈ out.2, c.functionName ∈ moduleContractFunctionNames) ∧
    (∀ (props : TListERC1155) (balances : List Int) out,
      listERC1155 props balances = .ok out →
      ∀ c ∈ out.2.1, c.functionName ∈ moduleContractFunctionNames) ∧
    (∀ (props : TTransferERC20) out, transferERC20 props = .ok out →
      ∀ c ∈ out.2, c.functionName ∈ moduleContractFunctionNames) ∧
    (∀ (props : TDisperseETH) out, disperseETH props = .ok out →
      ∀ c ∈ out.2, c.functionName ∈ moduleContractFunctionNames) ∧
    (∀ (props : TDisperseERC20) out, disperseERC20 props = .ok out →
      ∀ c ∈ out.2, c.functionName ∈ moduleContractFunctionNames) := by
  refine ⟨?_, ?_, ?_, ?_, ?_, ?_, ?_, ?_, ?_, ?_⟩
  · intro props allowance c hc
    simp only [isApprovedERC20, List.mem_singleton] at hc
    subst hc
    simp [balanceOfBatchCall, moduleContractFunctionNames, claimedContractFunctionNames]
  · intro props out h c hc
    simp only [approveERC20] at h
    cases h1 : assertAddress props.spenderAddress "spenderAddress" with
    | error e => rw [h1, exceptBind_error] at h; cases h
    | ok spender =>
    rw [h1, exceptBind_ok] at h
    cases h2 : assertAddress props.contractAddress "" with
    | error e => rw [h2, exceptBind_error] at h; cases h
    | ok contract =>
    rw [h2, exceptBind_ok, exceptPure_eval] at h
    injection h with h3
    subst h3
    simp only [List.mem_singleton] at hc
    subst hc
    simp [balanceOfBatchCall, moduleContractFunctionNames, claimedContractFunctionNames]
  · intro props out h c hc
    simp only [approveAllERC721] at h
    cases h1 : assertAddress props.spenderAddress "spenderAddress" with
    | error e => rw [h1, exceptBind_error] at h; cases h
    | ok spender =>
    rw [h1, exceptBind_ok] at h
    cases h2 : assertAddress props.contractAddress "" with
    | error e => rw [h2, exceptBind_error] at h; cases h
    | ok contract =>
    rw [h2, exceptBind_ok, exceptPure_eval] at h
    injection h with h3
    subst h3
    simp only [List.mem_singleton] at hc
    subst hc
    simp [balanceOfBatchCall, moduleContractFunctionNames, claimedContractFunctionNames]
  · intro props out h c hc
    simp only [transferERC721] at h
    cases h1 : assertAddress props.receiverAddress "Receiver address" with
    | error e => rw [h1, exceptBind_error] at h; cases h
    | ok receiver =>
    rw [h1, exceptBind_ok] at h
    cases h2 : assertAddress props.contractAddress "Contract address" with
    | error e => rw [h2, exceptBind_error] at h; cases h
    | ok contract =>
    rw [h2, exceptBind_ok] at h
    cases h3 : assertAddress props.userAddress "User address" with
    | error e => rw [h3, exceptBind_error] at h; cases h
    | ok user =>
    rw [h3, exceptBind_ok, exceptPure_eval] at h
    injection h with h4
    subst h4
    simp only [List.mem_singleton] at hc
    subst hc
    simp [balanceOfBatchCall, moduleContractFunctionNames, claimedContractFunctionNames]
  · intro props out h c hc
    simp only [batchTransferERC721] at h
    cases h1 : assertAddress props.collectionAddress "Collection address" with
    | error e => rw [h1, exceptBind_error] at h; cases h
    | ok collection =>
    rw [h1, exceptBind_ok] at h
    cases h2 : assertAddress props.receiverAddress "Receiver address" with
    | error e => rw [h2, exceptBind_error] at h; cases h
    | ok receiver =>
    rw [h2, exceptBind_ok] at h
    cases h3 : assertAddress props.contractAddress "Contract address" with
    | error e => rw [h3, exceptBind_error] at h; cases h
    | ok contract =>
    rw [h3, exceptBind_ok, exceptPure_eval] at h
    injection h with h4
    subst h4
    simp only [List.mem_singleton] at hc
    subst hc
    simp [balanceOfBatchCall, moduleContractFunctionNames, claimedContractFunctionNames]
  · intro props balances out h c hc
    simp only [transferERC1155] at h
    cases h1 : assertAddress props.receiverAddress "Receiver address" with
    | error e => rw [h1, exceptBind_error] at h; cases h
    | ok receiver =>
    rw [h1, exceptBind_ok] at h
    cases h2 : assertAddress props.contractAddress "Contract address" with
    | error e => rw [h2, exceptBind_error] at h; cases h
    | ok contract =>
    rw [h2, exceptBind_ok] at h
    cases h3 : assertAddress props.userAddress "User address" with
    | error e => rw [h3, exceptBind_error] at h; cases h
    | ok user =>
    rw [h3, exceptBind_ok] at h
    simp only [jsAssert] at h
    split at h
    · rw [exceptBind_ok, exceptPure_eval] at h
      injection h with h4
      subst h4
      simp only [List.mem_cons, List.mem_singleton, List.not_mem_nil, or_false] at hc
      cases hc with
      | inl h5 =>
          subst h5
          simp [balanceOfBatchCall, moduleContractFunctionNames, claimedContractFunctionNames]
      | inr h5 =>
          subst h5
          simp [balanceOfBatchCall, moduleContractFunctionNames, claimedContractFunctionNames]
    · rw [exceptBind_error] at h; cases h
  · intro props balances out h c hc
    simp only [listERC1155] at h
    cases h1 : assertAddress props.contractAddress "Contract address" with
    | error e => rw [h1, exceptBind_error] at h; cases h
    | ok contract =>
    rw [h1, exceptBind_ok] at h
    cases h2 : assertAddress props.userAddress "User address" with
    | error e => rw [h2, exceptBind_error] at h; cases h
    | ok user =>
    rw [h2, exceptBind_ok, exceptPure_eval] at h
    injection h with h3
    subst h3
    simp only [List.mem_singleton] at hc
    subst hc
    simp [balanceOfBatchCall, moduleContractFunctionNames, claimedContractFunctionNames]
  · intro props out h c hc
    simp only [transferERC20] at h
    cases h1 : assertAddress props.receiverAddress "receiverAddress" with
    | error e => rw [h1, exceptBind_error] at h; cases h
    | ok receiver =>
    rw [h1, exceptBind_ok] at h
    cases h2 : assertAddress props.contractAddress "" with
    | error e => rw [h2, exceptBind_error] at h; cases h
    | ok contract =>
    rw [h2, exceptBind_ok, exceptPure_eval] at h
    injection h with h3
    subst h3
    simp only [List.mem_singleton] at hc
    subst hc
    simp [balanceOfBatchCall, moduleContractFunctionNames, claimedContractFunctionNames]
  · intro props out h c hc
    simp only [disperseETH] at h
    cases h1 : assertAddress props.contractAddress "" with
    | error e => rw [h1, exceptBind_error] at h; cases h
    | ok contract =>
    rw [h1, exceptBind_ok] at h
    cases h2 : assertReceivers props.receivers with
    | error e => rw [h2, exceptBind_error] at h; cases h
    | ok urecv =>
    rw [h2, exceptBind_ok] at h
    cases h3 : assertAmountsPositive props.amounts with
    | error e => rw [h3, exceptBind_error] at h; cases h
    | ok uamt =>
    rw [h3, exceptBind_ok] at h
    simp only [jsAssert] at h
    split at h
    · rw [exceptBind_ok, exceptPure_eval] at h
      injection h with h4
      subst h4
      simp only [List.mem_singleton] at hc
      subst hc
      simp [balanceOfBatchCall, moduleContractFunctionNames, claimedContractFunctionNames]
    · rw [exceptBind_error] at h; cases h
  · intro props out h c hc
    simp only [disperseERC20] at h
    cases h0 : assertAddress props.tokenToDisperse "The tokenToDisperse" with
    | error e => rw [h0, exceptBind_error] at h; cases h
    | ok token =>
    rw [h0, exceptBind_ok] at h
    cases h1 : assertAddress props.contractAddress "" with
    | error e => rw [h1, exceptBind_error] at h; cases h
    | ok contract =>
    rw [h1, exceptBind_ok] at h
    cases h2 : assertReceivers props.receivers with
    | error e => rw [h2, exceptBind_error] at h; cases h
    | ok urecv =>
    rw [h2, exceptBind_ok] at h
    cases h3 : assertAmountsPositive props.amounts with
    | error e => rw [h3, exceptBind_error] at h; cases h
    | ok uamt =>
    rw [h3, exceptBind_ok] at h
    simp only [jsAssert] at h
    split at h
    · rw [exceptBind_ok, exceptPure_eval] at h
      injection h with h4
      subst h4
      simp only [List.mem_singleton] at hc
      subst hc
      simp [balanceOfBatchCall, moduleContractFunctionNames, claimedContractFunctionNames]
    · rw [exceptBind_error] at h; cases h

/-- Witness for C4 (amended) at concrete inputs: the allowance read of
isApprovedERC20 and the transfer call of transferERC20 are in the module
set. -/
theorem helpers_call_only_module_functions_witness :
    ("allowance" : String) ∈ moduleContractFunctionNames ∧
    ("transfer" : String) ∈ moduleContractFunctionNames :=
  ⟨helpers_call_only_module_functions.1
      { userAddress := addrOkA
        contractAddress := addrOkB
        spenderAddress := addrOkC } 0
      { address := addrOkB
        functionName := "allowance"
        args := [.addr addrOkA, .addr addrOkC] }
      (by decide),
   helpers_call_only_module_functions.2.2.2.2.2.2.2.1
      { contractAddress := some addrOkA
        userAddress := none
        receiverAddress := some addrOkB
        amount := 5 }
      ({ contractAddress := some addrOkA
         userAddress := none
         receiverAddress := some addrOkB
         amount := 5 },
       [{ address := addrOkA
          functionName := "transfer"
          args := [.addr addrOkB, .num 5] }])
      rfl
      { address := addrOkA
        functionName := "transfer"
        args := [.addr addrOkB, .num 5] }
      (by decide)⟩

/-- C8: when the amount field is omitted or 0n, isApprovedERC20 compares
the allowance against MAX_UINT_256 (JavaScript || treats 0n as falsy), so
it answers true exactly when the allowance is at least MAX_UINT_256; for
a positive amount it answers true exactly when the allowance is at least
that amount. -/
theorem isApprovedERC20_amount_defaults_to_max
    (props : TIsApprovedERC20) (allowance : Int) :
    ((props.amount = none ∨ props.amount = some 0) →
      ((isApprovedERC20 props allowance).2.2 = true ↔ MAX_UINT_256 ≤ allowance)) ∧
    (∀ a : Int, props.amount = some a → 0 < a →
      ((isApprovedERC20 props allowance).2.2 = true ↔ a ≤ allowance)) := by
  have hjs : jsOrInt allowance 0 = allowance := by
    by_cases h : allowance = 0 <;> simp [jsOrInt, h]
  constructor
  · intro h
    have hcase : jsOrOpt props.amount MAX_UINT_256 = MAX_UINT_256 := by
      rcases h with h | h <;> simp [jsOrOpt, jsOrInt, h]
    simp only [isApprovedERC20, hcase, hjs]
    simp
  · intro a ha hpos
    have hne : ¬a = 0 := by omega
    have hcase : jsOrOpt props.amount MAX_UINT_256 = a := by
      simp [jsOrOpt, jsOrInt, ha, hne]
    simp only [isApprovedERC20, hcase, hjs]
    simp

/-- Witness for C8 at concrete inputs: with amount omitted an allowance of
MAX_UINT_256 is approved, and with amount 5 an allowance of 7 is
approved. -/
theorem isApprovedERC20_amount_defaults_to_max_witness :
    ((isApprovedERC20
        { userAddress := addrOkA
          contractAddress := addrOkB
          spenderAddress := addrOkC
          amount := none } MAX_UINT_256).2.2 = true ↔
      MAX_UINT_256 ≤ MAX_UINT_256) ∧
    ((isApprovedERC20
        { userAddress := addrOkA
          contractAddress := addrOkB
          spenderAddress := addrOkC
          amount := some 5 } 7).2.2 = true ↔ (5 : Int) ≤ 7) :=
  ⟨(isApprovedERC20_amount_defaults_to_max
      { userAddress := addrOkA
        contractAddress := addrOkB
        spenderAddress := addrOkC
        amount := none } MAX_UINT_256).1 (Or.inl rfl),
   (isApprovedERC20_amount_defaults_to_max
      { userAddress := addrOkA
        contractAddress := addrOkB
        spenderAddress := addrOkC
        amount := some 5 } 7).2 5 rfl (by decide)⟩

/-- C6 counterexample: approveERC20 writes the onTrySomethingElse field of
its props object (installing the alternate-ABI approve fallback), so the
props object after the call differs from the one passed in. -/
theorem approveERC20_mutates_props :
    approveERC20
        { contractAddress := some addrOkA
          userAddress := none
          onTrySomethingElse := none
          spenderAddress := some addrOkB
          amount := 5 } =
      Except.ok
        ({ contractAddress := some addrOkA
           userAddress := none
           onTrySomethingElse := some (
             { address := addrOkA
               functionName := "approve"
               args := [.addr addrOkB, .num 5] })
           spenderAddress := some addrOkB
           amount := 5 },
         [{ address := addrOkA
            functionName := "approve"
            args := [.addr addrOkB, .num 5] }]) ∧
    ({ contractAddress := some addrOkA
       userAddress := none
       onTrySomethingElse := some (
         { address := addrOkA
           functionName := "approve"
           args := [.addr addrOkB, .num 5] })
       spenderAddress := some addrOkB
       amount := 5 } : TApproveERC20) ≠
      { contractAddress := some addrOkA
        userAddress := none
        onTrySomethingElse := none
        spenderAddress := some addrOkB
        amount := 5 } :=
  ⟨rfl, by decide⟩

/-- C6 (amended): no helper mutates module-level state (each is a pure
mapping in this model), and every helper returns its props object
unchanged except approveERC20, which writes exactly the
onTrySomethingElse field, setting it to the alternate-ABI approve
fallback call.  transferEther contains no assignment to props and is
modelled without returning it. -/
theorem helpers_props_unchanged_except_approveERC20 :
    (∀ (props : TIsApprovedERC20) (allowance : Int),
        (isApprovedERC20 props allowance).1 = props) ∧
    (∀ (props : TApproveERC20) out, approveERC20 props = .ok out →
        ∃ spender contract,
          assertAddress props.spenderAddress "spenderAddress" = .ok spender ∧
          assertAddress props.contractAddress "" = .ok contract ∧
          out.1 = { props with onTrySomethingElse := some (
            { address := contract
              functionName := "approve"
              args := [.addr spender, .num props.amount] }) }) ∧
    (∀ (props : TApproveAllERC721) out, approveAllERC721 props = .ok out →
        out.1 = props) ∧
    (∀ (props : TTransferERC721) out, transferERC721 props = .ok out →
        out.1 = props) ∧
    (∀ (props : TBatchTransferERC721) out, batchTransferERC721 props = .ok out →
        out.1 = props) ∧
    (∀ (props : TTransferERC1155) (balances : List Int) out,
        transferERC1155 props balances = .ok out → out.1 = props) ∧
    (∀ (props : TListERC1155) (balances : List Int) out,
        listERC1155 props balances = .ok out → out.1 = props) ∧
    (∀ (props : TTransferERC20) out, transferERC20 props = .ok out →
        out.1 = props) ∧
    (∀ (props : TDisperseETH) out, disperseETH props = .ok out →
        out.1 = props) ∧
    (∀ (props : TDisperseERC20) out, disperseERC20 props = .ok out →
        out.1 = props) := by
  refine ⟨?_, ?_, ?_, ?_, ?_, ?_, ?_, ?_, ?_, ?_⟩
  · intro props allowance
    rfl
  · intro props out h
    simp only [approveERC20] at h
    cases h1 : assertAddress props.spenderAddress "spenderAddress" with
    | error e => rw [h1, exceptBind_error] at h; cases h
    | ok spender =>
    rw [h1, exceptBind_ok] at h
    cases h2 : assertAddress props.contractAddress "" with
    | error e => rw [h2, exceptBind_error] at h; cases h
    | ok contract =>
    rw [h2, exceptBind_ok, exceptPure_eval] at h
    injection h with h3
    subst h3
    exact ⟨spender, contract, rfl, rfl, rfl⟩
  · intro props out h
    simp only [approveAllERC721] at h
    cases h1 : assertAddress props.spenderAddress "spenderAddress" with
    | error e => rw [h1, exceptBind_error] at h; cases h
    | ok spender =>
    rw [h1, exceptBind_ok] at h
    cases h2 : assertAddress props.contractAddress "" with
    | error e => rw [h2, exceptBind_error] at h; cases h
    | ok contract =>
    rw [h2, exceptBind_ok, exceptPure_eval] at h
    injection h with h3
    subst h3
    rfl
  · intro props out h
    simp only [transferERC721] at h
    cases h1 : assertAddress props.receiverAddress "Receiver address" with
    | error e => rw [h1, exceptBind_error] at h; cases h
    | ok receiver =>
    rw [h1, exceptBind_ok] at h
    cases h2 : assertAddress props.contractAddress "Contract address" with
    | error e => rw [h2, exceptBind_error] at h; cases h
    | ok contract =>
    rw [h2, exceptBind_ok] at h
    cases h3 : assertAddress props.userAddress "User address" with
    | error e => rw [h3, exceptBind_error] at h; cases h
    | ok user =>
    rw [h3, exceptBind_ok, exceptPure_eval] at h
    injection h with h4
    subst h4
    rfl
  · intro props out h
    simp only [batchTransferERC721] at h
    cases h1 : assertAddress props.collectionAddress "Collection address" with
    | error e => rw [h1, exceptBind_error] at h; cases h
    | ok collection =>
    rw [h1, exceptBind_ok] at h
    cases h2 : assertAddress props.receiverAddress "Receiver address" with
    | error e => rw [h2, exceptBind_error] at h; cases h
    | ok receiver =>
    rw [h2, exceptBind_ok] at h
    cases h3 : assertAddress props.contractAddress "Contract address" with
    | error e => rw [h3, exceptBind_error] at h; cases h
    | ok contract =>
    rw [h3, exceptBind_ok, exceptPure_eval] at h
    injection h with h4
    subst h4
    rfl
  · intro props balances out h
    simp only [transferERC1155] at h
    cases h1 : assertAddress props.receiverAddress "Receiver address" with
    | error e => rw [h1, exceptBind_error] at h; cases h
    | ok receiver =>
    rw [h1, exceptBind_ok] at h
    cases h2 : assertAddress props.contractAddress "Contract address" with
    | error e => rw [h2, exceptBind_error] at h; cases h
    | ok contract =>
    rw [h2, exceptBind_ok] at h
    cases h3 : assertAddress props.userAddress "User address" with
    | error e => rw [h3, exceptBind_error] at h; cases h
    | ok user =>
    rw [h3, exceptBind_ok] at h
    simp only [jsAssert] at h
    split at h
    · rw [exceptBind_ok, exceptPure_eval] at h
      injection h with h4
      subst h4
      rfl
    · rw [exceptBind_error] at h; cases h
  · intro props balances out h
    simp only [listERC1155] at h
    cases h1 : assertAddress props.contractAddress "Contract address" with
    | error e => rw [h1, exceptBind_error] at h; cases h
    | ok contract =>
    rw [h1, exceptBind_ok] at h
    cases h2 : assertAddress props.userAddress "User address" with
    | error e => rw [h2, exceptBind_error] at h; cases h
    | ok user =>
    rw [h2, exceptBind_ok, exceptPure_eval] at h
    injection h with h3
    subst h3
    rfl
  · intro props out h
    simp only [transferERC20] at h
    cases h1 : assertAddress props.receiverAddress "receiverAddress" with
    | error e => rw [h1, exceptBind_error] at h; cases h
    | ok receiver =>
    rw [h1, exceptBind_ok] at h
    cases h2 : assertAddress props.contractAddress "" with
    | error e => rw [h2, exceptBind_error] at h; cases h
    | ok contract =>
    rw [h2, exceptBind_ok, exceptPure_eval] at h
    injection h with h3
    subst h3
    rfl
  · intro props out h
    simp only [disperseETH] at h
    cases h1 : assertAddress props.contractAddress "" with
    | error e => rw [h1, exceptBind_error] at h; cases h
    | ok contract =>
    rw [h1, exceptBind_ok] at h
    cases h2 : assertReceivers props.receivers with
    | error e => rw [h2, exceptBind_error] at h; cases h
    | ok urecv =>
    rw [h2, exceptBind_ok] at h
    cases h3 : assertAmountsPositive props.amounts with
    | error e => rw [h3, exceptBind_error] at h; cases h
    | ok uamt =>
    rw [h3, exceptBind_ok] at h
    simp only [jsAssert] at h
    split at h
    · rw [exceptBind_ok, exceptPure_eval] at h
      injection h with h4
      subst h4
      rfl
    · rw [exceptBind_error] at h; cases h
  · intro props out h
    simp only [disperseERC20] at h
    cases h0 : assertAddress props.tokenToDisperse "The tokenToDisperse" with
    | error e => rw [h0, exceptBind_error] at h; cases h
    | ok token =>
    rw [h0, exceptBind_ok] at h
    cases h1 : assertAddress props.contractAddress "" with
    | error e => rw [h1, exceptBind_error] at h; cases h
    | ok contract =>
    rw [h1, exceptBind_ok] at h
    cases h2 : assertReceivers props.receivers with
    | error e => rw [h2, exceptBind_error] at h; cases h
    | ok urecv =>
    rw [h2, exceptBind_ok] at h
    cases h3 : assertAmountsPositive props.amounts with
    | error e => rw [h3, exceptBind_error] at h; cases h
    | ok uamt =>
    rw [h3, exceptBind_ok] at h
    simp only [jsAssert] at h
    split at h
    · rw [exceptBind_ok, exceptPure_eval] at h
      injection h with h4
      subst h4
      rfl
    · rw [exceptBind_error] at h; cases h

/-- Witness for C6 (amended) at concrete inputs: a transferERC20 call
returns its props unchanged, and an approveERC20 call returns its props
with only onTrySomethingElse written. -/
theorem helpers_props_unchanged_witness :
    (({ contractAddress := some addrOkA
        userAddress := none
        receiverAddress := some addrOkB
        amount := 5 } : TTransferERC20),
      [({ address := addrOkA
          functionName := "transfer"
          args := [.addr addrOkB, .num 5] } : ContractCall)]).1 =
      { contractAddress := some addrOkA
        userAddress := none
        receiverAddress := some addrOkB
        amount := 5 } ∧
    (∃ spender contract,
      assertAddress (some addrOkB) "spenderAddress" = .ok spender ∧
      assertAddress (some addrOkA) "" = .ok contract ∧
      ({ contractAddress := some addrOkA
         userAddress := none
         onTrySomethingElse := some (
           { address := addrOkA
             functionName := "approve"
             args := [.addr addrOkB, .num 5] })
         spenderAddress := some addrOkB
         amount := 5 } : TApproveERC20) =
        { contractAddress := some addrOkA
          userAddress := none
          onTrySomethingElse := some (
            { address := contract
              functionName := "approve"
              args := [.addr spender, .num 5] })
          spenderAddress := some addrOkB
          amount := 5 }) :=
  ⟨helpers_props_unchanged_except_approveERC20.2.2.2.2.2.2.2.1
      { contractAddress := some addrOkA
        userAddress := none
        receiverAddress := some addrOkB
        amount := 5 }
      ({ contractAddress := some addrOkA
         userAddress := none
         receiverAddress := some addrOkB
         amount := 5 },
       [{ address := addrOkA
          functionName := "transfer"
          args := [.addr addrOkB, .num 5] }])
      rfl,
   helpers_props_unchanged_except_approveERC20.2.1
      { contractAddress := some addrOkA
        userAddress := none
        onTrySomethingElse := none
        spenderAddress := some addrOkB
        amount := 5 }
      ({ contractAddress := some addrOkA
         userAddress := none
         onTrySomethingElse := some (
           { address := addrOkA
             functionName := "approve"
             args := [.addr addrOkB, .num 5] })
         spenderAddress := some addrOkB
         amount := 5 },
       [{ address := addrOkA
          functionName := "approve"
          args := [.addr addrOkB, .num 5] }])
      rfl⟩

theorem exceptMap_ok {α β : Type} (f : α → β) (a : α) :
    (f <$> (Except.ok a : Except String α)) = Except.ok (f a) := rfl

theorem exceptMap_error {α β : Type} (f : α → β) (e : String) :
    (f <$> (Except.error e : Except String α)) = Except.error e := rfl

/-- C7: every transferEther result pairs the success flag with either the
receipt or the error: when the transaction is mined the response holds
the receipt and isSuccessful is true exactly when the receipt status is
success; when an exception was caught the response holds the error and
isSuccessful is false. -/
theorem transferEther_result_shape (props : TTransferEther) (env : EthEnv)
    (out : EtherOut) (h : transferEther props env = .ok out) :
    (∃ r, out.result.receipt = some r ∧ out.result.error = none ∧
       out.result.isSuccessful = decide (r.status = "success")) ∨
    (out.result.receipt = none ∧ out.result.isSuccessful = false ∧
       ∃ e, out.result.error = some e) := by
  simp only [transferEther] at h
  cases h1 : assertAddress props.receiverAddress "receiverAddress" with
  | error e => rw [h1, exceptBind_error] at h; cases h
  | ok receiver =>
  rw [h1, exceptBind_ok] at h
  cases h2 : assertAddress props.userAddress "userAddress" with
  | error e => rw [h2, exceptBind_error] at h; cases h
  | ok user =>
  rw [h2, exceptBind_ok] at h
  cases htry : transferEtherTry props env with
  | ok pr =>
      obtain ⟨v, r⟩ := pr
      rw [htry] at h
      injection h with h3
      subst h3
      exact Or.inl ⟨r, rfl, rfl, rfl⟩
  | error e =>
      rw [htry] at h
      injection h with h3
      subst h3
      exact Or.inr ⟨rfl, rfl, e, rfl⟩

/-- Witness for C7 at a concrete input: in an environment where every
primitive succeeds and the receipt status is success, the response holds
the receipt with isSuccessful true. -/
theorem transferEther_result_shape_witness :
    (∃ r, ({ isSuccessful := true
             receipt := some ⟨"success"⟩
             error := none } : TTxResponse).receipt = some r ∧
       ({ isSuccessful := true
          receipt := some ⟨"success"⟩
          error := none } : TTxResponse).error = none ∧
       ({ isSuccessful := true
          receipt := some ⟨"success"⟩
          error := none } : TTxResponse).isSuccessful =
         decide (r.status = "success")) ∨
    (({ isSuccessful := true
        receipt := some ⟨"success"⟩
        error := none } : TTxResponse).receipt = none ∧
     ({ isSuccessful := true
        receipt := some ⟨"success"⟩
        error := none } : TTxResponse).isSuccessful = false ∧
     ∃ e, ({ isSuccessful := true
             receipt := some ⟨"success"⟩
             error := none } : TTxResponse).error = some e) :=
  transferEther_result_shape
    { userAddress := some addrOkB
      receiverAddress := some addrOkC
      amount := 1000000 }
    sampleEnvOk
    { statuses := [.pending, .success]
      finalValue := some 1000000
      result := { isSuccessful := true
                  receipt := some ⟨"success"⟩
                  error := none } }
    rfl

/-- C5: exceptions raised inside the try block of transferEther (in
particular by the submission sendTransaction or the confirmation
waitForTransaction) are caught rather than propagated: the function
returns normally with an error status reported through the callback and
a failure response carrying isSuccessful false and the error.  The last
two conjuncts show that a throwing submission or confirmation does make
the try block throw. -/
theorem transferEther_catches_tx_errors :
    (∀ (props : TTransferEther) (env : EthEnv) (receiver user : Addr) (e : String),
      assertAddress props.receiverAddress "receiverAddress" = .ok receiver →
      assertAddress props.userAddress "userAddress" = .ok user →
      props.hasStatusHandler = true →
      transferEtherTry props env = .error e →
      transferEther props env = .ok
        { statuses := [.pending, .errored]
          finalValue := none
          result := { isSuccessful := false, receipt := none, error := some e } }) ∧
    (∀ (props : TTransferEther) (env : EthEnv) (g mp : Option Int) (e : String),
      props.shouldAdjustForGas = false →
      env.prepareGas props.amount = .ok (g, mp) →
      env.sendTx props.amount = .error e →
      transferEtherTry props env = .error e) ∧
    (∀ (props : TTransferEther) (env : EthEnv) (g mp : Option Int) (hsh : Nat) (e : String),
      props.shouldAdjustForGas = false →
      env.prepareGas props.amount = .ok (g, mp) →
      env.sendTx props.amount = .ok hsh →
      env.waitTx hsh = .error e →
      transferEtherTry props env = .error e) := by
  refine ⟨?_, ?_, ?_⟩
  · intro props env receiver user e hrecv huser hhs htry
    simp only [transferEther]
    rw [hrecv, exceptBind_ok, huser, exceptBind_ok, htry]
    simp [emitStatus, hhs, exceptPure_eval]
  · intro props env g mp e hadj hprep hsend
    simp only [transferEtherTry]
    rw [hprep, exceptBind_ok]
    simp [hadj, exceptPure_eval, exceptBind_ok, hsend, exceptBind_error]
  · intro props env g mp hsh e hadj hprep hsend hwait
    simp only [transferEtherTry]
    rw [hprep, exceptBind_ok]
    simp [hadj, exceptPure_eval, exceptBind_ok, hsend, hwait, exceptBind_error,
      exceptMap_ok, exceptMap_error]

/-- Witness for C5 at a concrete input: with a throwing sendTransaction
the try block throws and transferEther returns the caught failure with
the error status reported. -/
theorem transferEther_catches_tx_errors_witness :
    transferEther
        { userAddress := some addrOkB
          receiverAddress := some addrOkC
          amount := 1000000 }
        sampleEnvSendFails =
      Except.ok
        { statuses := [.pending, .errored]
          finalValue := none
          result := { isSuccessful := false
                      receipt := none
                      error := some "send failed" } } ∧
    transferEtherTry
        { userAddress := some addrOkB
          receiverAddress := some addrOkC
          amount := 1000000 }
        sampleEnvSendFails = .error "send failed" :=
  ⟨transferEther_catches_tx_errors.1
      { userAddress := some addrOkB
        receiverAddress := some addrOkC
        amount := 1000000 }
      sampleEnvSendFails addrOkC addrOkB "send failed" rfl rfl rfl rfl,
   transferEther_catches_tx_errors.2.1
      { userAddress := some addrOkB
        receiverAddress := some addrOkC
        amount := 1000000 }
      sampleEnvSendFails (some 100) (some 2) "send failed" rfl rfl rfl⟩

theorem transferEtherTry_adjusted_value
    (props : TTransferEther) (env : EthEnv) (g mp : Option Int) (mpv v : Int)
    (r : Receipt)
    (hadj : props.shouldAdjustForGas = true)
    (hprep : env.prepareGas props.amount = .ok (g, mp))
    (hmp : resolveMaxPriorityFee env mp = .ok mpv)
    (htry : transferEtherTry props env = .ok (v, r)) :
    v = props.amount - (toBigIntOpt g * mpv + 21000) := by
  simp only [transferEtherTry] at htry
  rw [hprep, exceptBind_ok] at htry
  simp only [hadj, if_true] at htry
  rw [hmp, exceptBind_ok] at htry
  cases hp2 : env.prepareGas (gasAdjustedValue props.amount (toBigIntOpt g) mpv) with
  | error e2 => rw [hp2, exceptBind_error] at htry; cases htry
  | ok pr2 =>
  rw [hp2, exceptBind_ok, exceptPure_eval, exceptBind_ok] at htry
  cases hsend : env.sendTx (gasAdjustedValue props.amount (toBigIntOpt g) mpv) with
  | error e3 => rw [hsend, exceptBind_error] at htry; cases htry
  | ok hsh =>
  rw [hsend, exceptBind_ok] at htry
  cases hwait : env.waitTx hsh with
  | error e4 => rw [hwait, exceptBind_error] at htry; cases htry
  | ok rc =>
  rw [hwait, exceptBind_ok, exceptPure_eval] at htry
  injection htry with h5
  have h6 : gasAdjustedValue props.amount (toBigIntOpt g) mpv = v := congrArg Prod.fst h5
  rw [← h6]
  rfl

/-- C9: when shouldAdjustForGas is set and the call reaches submission,
the value of the transaction finally prepared equals the requested amount
minus (estimated gas times maxPriorityFeePerGas, plus a flat 21000 added
in wei, not multiplied by any gas price). -/
theorem transferEther_gas_adjusted_value
    (props : TTransferEther) (env : EthEnv) (g mp : Option Int) (mpv : Int)
    (out : EtherOut) (v : Int)
    (hadj : props.shouldAdjustForGas = true)
    (hprep : env.prepareGas props.amount = .ok (g, mp))
    (hmp : resolveMaxPriorityFee env mp = .ok mpv)
    (h : transferEther props env = .ok out)
    (hv : out.finalValue = some v) :
    v = props.amount - (toBigIntOpt g * mpv + 21000) := by
  simp only [transferEther] at h
  cases h1 : assertAddress props.receiverAddress "receiverAddress" with
  | error e => rw [h1, exceptBind_error] at h; cases h
  | ok receiver =>
  rw [h1, exceptBind_ok] at h
  cases h2 : assertAddress props.userAddress "userAddress" with
  | error e => rw [h2, exceptBind_error] at h; cases h
  | ok user =>
  rw [h2, exceptBind_ok] at h
  cases htry : transferEtherTry props env with
  | error e =>
      rw [htry] at h
      injection h with h3
      subst h3
      simp at hv
  | ok pr =>
      obtain ⟨v2, r⟩ := pr
      rw [htry] at h
      injection h with h3
      subst h3
      simp only [Option.some.injEq] at hv
      subst hv
      exact transferEtherTry_adjusted_value props env g mp mpv v2 r hadj hprep hmp htry

/-- Witness for C9 at a concrete input: amount 1000000, estimated gas 100,
maxPriorityFeePerGas 2: the final value is 1000000 - (100 * 2 + 21000) =
978800. -/
theorem transferEther_gas_adjusted_value_witness :
    (978800 : Int) = 1000000 - (toBigIntOpt (some 100) * 2 + 21000) :=
  transferEther_gas_adjusted_value
    { userAddress := some addrOkB
      receiverAddress := some addrOkC
      amount := 1000000
      shouldAdjustForGas := true }
    sampleEnvOk (some 100) (some 2) 2
    { statuses := [.pending, .success]
      finalValue := some 978800
      result := { isSuccessful := true
                  receipt := some ⟨"success"⟩
                  error := none } }
    978800 rfl rfl rfl rfl rfl
